import Mathlib

/-
Verification of the s3Backup synchronization core (s3Backup.go).

The Go program is embedded shallowly:
  * `sanitizePaths` models `SanitizePaths` (lines 128-174) after URL parsing,
    i.e. it receives the destination URL's path component and the local source
    path; the `os.Exit(1)` on a directory-to-exact-key copy becomes `none`.
  * `stripLeadingSlash` models the key normalization at the top of `Upload`
    (lines 188-190).
  * `PTReader` and `ptRead`/`ptClose` model `ProgressTrackingReader`
    (lines 44-84); the `fmt.Printf` progress line is modelled as the reported
    pair (cumulative position, total size).
  * `fileStep` models one `UploadFile` call (lines 212-317) against an
    abstract remote store; `runTasks` models the sequence of `UploadFile`
    calls that the `Upload` tree walk issues for the regular files it visits.

String primitives (`strings.HasSuffix(s, "/")`, `s[:len(s)-1]`, `s[1:]`,
`path.Base`) are re-implemented over the character list `String.data`, so
that concrete instances compute by `decide`.
-/

set_option maxHeartbeats 1000000

namespace S3Backup

/-- Go `strings.HasSuffix(s, "/")`: the last character is '/'. -/
def endsWithSlash (s : String) : Bool :=
  match s.data.getLast? with
  | some c => decide (c = '/')
  | none => false

/-- Go `strings.HasPrefix(s, "/")`: the first character is '/'. -/
def startsWithSlash (s : String) : Bool :=
  match s.data.head? with
  | some c => decide (c = '/')
  | none => false

/-- Go `s[:len(s)-1]`: remove the final character (used only to strip a
trailing '/', which is a single byte). -/
def dropLastChar (s : String) : String :=
  String.mk s.data.dropLast

/-- Go `s[1:]`: remove the first character (used only to strip a leading
'/', which is a single byte). -/
def dropFirstChar (s : String) : String :=
  String.mk (s.data.drop 1)

/-- Go `path.Base`: the last element of a slash-separated path.  Trailing
slashes are removed first; the empty path gives ".", an all-slash path "/". -/
def pathBase (p : String) : String :=
  if p.data.isEmpty then "." else
  let r := p.data.reverse.dropWhile (fun c => decide (c = '/'))
  if r.isEmpty then "/" else
  String.mk (r.takeWhile (fun c => !(decide (c = '/')))).reverse

/-- SanitizePaths (lines 150-173), after `url.Parse`: takes the destination
URL's path component (`s3Url.Path`, e.g. "/x/" for s3://bucket/x/) and the
local source path, and returns `some (s3Key, srcFile)`, or `none` where the
Go code exits with the InvalidCopyTarget message (directory source, exact
destination key). -/
def sanitizePaths (s3Key0 : String) (srcFile0 : String) : Option (String × String) :=
  if endsWithSlash s3Key0 then
    if endsWithSlash srcFile0 then
      some (dropLastChar s3Key0, dropLastChar srcFile0)
    else
      some (s3Key0 ++ pathBase srcFile0, srcFile0)
  else
    if endsWithSlash srcFile0 then none
    else some (s3Key0, srcFile0)

/-- Upload, lines 188-190: a leading '/' on the key is removed. -/
def stripLeadingSlash (k : String) : String :=
  if startsWithSlash k then dropFirstChar k else k

/-- The object key actually used for a file destination: `SanitizePaths`
followed by the leading-slash strip in `Upload`. -/
def resolvedKey (s3Path srcFile : String) : Option String :=
  (sanitizePaths s3Path srcFile).map (fun p => stripLeadingSlash p.1)

/- Progress tracking reader (lines 44-84). -/

/-- State of a `ProgressTrackingReader`: the wrapped stream's progress
counters (`totalSize`, `currentPosition`, `lastRead`). -/
structure PTReader where
  totalSize : Int
  currentPosition : Int
  lastRead : Int
deriving Repr, DecidableEq

/-- `ReportProgress` (lines 53-65): fold the previous read's byte count into
the position, reset it, and emit the progress pair
(cumulative position, total size) that the printed line displays. -/
def reportProgress (pr : PTReader) : PTReader × (Int × Int) :=
  (⟨pr.totalSize, pr.currentPosition + pr.lastRead, 0⟩,
   (pr.currentPosition + pr.lastRead, pr.totalSize))

/-- `Read` (lines 67-75): report progress, then perform the underlying read;
`n` is the byte count the underlying read returns and `ok` whether it
returned without error (only then is `lastRead` recorded). -/
def ptRead (pr : PTReader) (n : Int) (ok : Bool) : PTReader × (Int × Int) :=
  let rp := reportProgress pr
  (if ok then { rp.1 with lastRead := n } else rp.1, rp.2)

/-- `Close` (lines 77-80): one final progress report. -/
def ptClose (pr : PTReader) : PTReader × (Int × Int) :=
  reportProgress pr

/-- The sequence of progress pairs emitted by a sequence of successful reads
of the given chunk sizes followed by `Close`. -/
def runReads : PTReader → List Int → List (Int × Int)
  | pr, [] => [(ptClose pr).2]
  | pr, n :: ns => (ptRead pr n true).2 :: runReads (ptRead pr n true).1 ns

/-- `NewProgressTrackingReader` (lines 82-84). -/
def newProgressTrackingReader (total : Int) : PTReader :=
  ⟨total, 0, 0⟩

theorem runReads_general (chunks : List Int) :
    ∀ total pos last : Int,
      runReads ⟨total, pos, last⟩ chunks
        = (List.range (chunks.length + 1)).map
            (fun i => (pos + last + (chunks.take i).sum, total)) := by
  induction chunks with
  | nil =>
    intro total pos last
    have h0 : runReads ⟨total, pos, last⟩ [] = [(pos + last, total)] := rfl
    rw [h0]
    simp
  | cons n ns ih =>
    intro total pos last
    have h1 : runReads ⟨total, pos, last⟩ (n :: ns)
        = (pos + last, total) :: runReads ⟨total, pos + last, n⟩ ns := rfl
    rw [h1, List.length_cons, List.range_succ_eq_map, List.map_cons,
      List.map_map, ih total (pos + last) n]
    refine congrArg₂ List.cons ?_ ?_
    · simp
    · refine congrArg₂ List.map ?_ rfl
      funext i
      simp [Function.comp, List.take_succ_cons, add_assoc]

/-- C9: while streaming, the progress callback fires once at every read call
(plus the final one at close), and each invocation reports the cumulative
bytes transferred so far together with the total size: the i-th report is the
sum of the first i chunk sizes paired with `total`, so the report following
chunk j carries the cumulative count through chunk j. -/
theorem c9_progress_reports (total : Int) (chunks : List Int) :
    runReads (newProgressTrackingReader total) chunks
      = (List.range (chunks.length + 1)).map
          (fun i => ((chunks.take i).sum, total)) := by
  have h := runReads_general chunks total 0 0
  simpa [newProgressTrackingReader] using h

/-- C5: path resolution. With destination URL path "/x/" (s3://bucket/x/) and
file source "/a/b" the key is "x/b"; with directory source "/a/b/" the base
key is "x"; with destination path "/x" and file source "/a/b" the key is "x";
with destination path "/x" and directory source "/a/b/" resolution fails
(InvalidCopyTarget); and a leading slash on a computed key is stripped. -/
theorem c5_path_resolution :
    (resolvedKey "/x/" "/a/b" = some "x/b"
       ∧ sanitizePaths "/x/" "/a/b" = some ("/x/b", "/a/b"))
    ∧ (resolvedKey "/x/" "/a/b/" = some "x"
       ∧ sanitizePaths "/x/" "/a/b/" = some ("/x", "/a/b"))
    ∧ resolvedKey "/x" "/a/b" = some "x"
    ∧ sanitizePaths "/x" "/a/b/" = none
    ∧ ∀ k : String, startsWithSlash k = true → stripLeadingSlash k = dropFirstChar k := by
  refine ⟨⟨by decide, by decide⟩, ⟨by decide, by decide⟩, by decide, by decide, ?_⟩
  intro k hk
  simp [stripLeadingSlash, hk]

/-- C5 witness: the general leading-slash clause applied at "/abc". -/
theorem c5_path_resolution_witness :
    startsWithSlash "/abc" = true ∧ stripLeadingSlash "/abc" = dropFirstChar "/abc" :=
  ⟨by decide, c5_path_resolution.2.2.2.2 "/abc" (by decide)⟩

/- Change detector and uploader: UploadFile (lines 212-317). -/

/-- Remote object as the S3 collaborator exposes it to `UploadFile`:
`HeadObject` yields `DeleteMarker`, `ContentLength` and `Metadata`;
`GetObjectTagging` yields `tags`.  `deleteMarker = true` models the
`DeleteMarker` response field being set (non-nil). -/
structure RemoteObject where
  size : Int
  deleteMarker : Bool
  metadata : List (String × String)
  tags : List (String × String)
deriving Repr, DecidableEq

/-- The remote bucket: objects by key. -/
def Store : Type :=
  String → Option RemoteObject

/-- Local file facts `UploadFile` consumes: `info.Size()`, the formatted
`info.ModTime()` (`modTime`, line 215) and the sha256 hex digest
`GetFileHash` would compute from the content. -/
structure FileMeta where
  size : Int
  modTime : String
  hash : String
deriving Repr, DecidableEq

/-- Outcomes of the fallible collaborator calls made during one `UploadFile`:
whether `HeadObject` fails with a non-404 transport error, and whether
`GetObjectTagging`, `GetFileHash`, `os.Open`, `s3Uploader.Upload` and
`PutObjectTagging` succeed. -/
structure TaskEnv where
  probeError : Bool
  tagGetOk : Bool
  hashOk : Bool
  openOk : Bool
  uploadOk : Bool
  tagPutOk : Bool
deriving Repr, DecidableEq

/-- All collaborator calls succeed (and the probe is not a transport error). -/
def TaskEnv.ok (e : TaskEnv) : Bool :=
  !e.probeError && e.tagGetOk && e.hashOk && e.openOk && e.uploadOk && e.tagPutOk

/-- The error-free environment. -/
def envOk : TaskEnv :=
  ⟨false, true, true, true, true, true⟩

/-- How one `UploadFile` call ended. -/
inductive UploadStatus where
  | probeFailed
  | skippedTimestamp
  | hashFailed
  | skippedHash
  | openFailed
  | uploadFailed
  | uploadedOk
deriving Repr, DecidableEq

/-- Observable effects of one `UploadFile` call: its final status, whether
the local file content was read (`GetFileHash` ran), whether a binary put of
the object bytes was issued and with which `Metadata` map, and whether a
`PutObjectTagging` call was issued and with which tag set. -/
structure StepResult where
  status : UploadStatus
  fileRead : Bool
  putIssued : Bool
  putMetadata : Option (List (String × String))
  tagsIssued : Option (List (String × String))
deriving Repr, DecidableEq

/-- The tag loop of lines 238-243: find the first tag named
"modified-timestamp" (the loop breaks at the first hit). -/
def findTsTag (tags : List (String × String)) : Option (String × String) :=
  tags.find? (fun t => decide (t.1 = "modified-timestamp"))

/-- Value of the first "modified-timestamp" tag, if any. -/
def tsTagValue (tags : List (String × String)) : Option String :=
  (findTsTag tags).map (fun t => t.2)

/-- `headObjectResponse.Metadata["sha256"]` (line 259). -/
def storedHash (md : List (String × String)) : Option String :=
  (md.find? (fun kv => decide (kv.1 = "sha256"))).map (fun kv => kv.2)

/-- Lines 232 and 258: the probe found an object, its `DeleteMarker` field is
nil, and `info.Size() == *headObjectResponse.ContentLength`. -/
def sizeMatchB (f : FileMeta) : Option RemoteObject → Bool
  | some o => !o.deleteMarker && decide (f.size = o.size)
  | none => false

/-- Lines 233-236: `GetObjectTagging` is called exactly when the size/marker
check of line 232 passed; on failure its response is nil (ignored error). -/
def tagResp (f : FileMeta) (e : TaskEnv) (head : Option RemoteObject) :
    Option (List (String × String)) :=
  if sizeMatchB f head && e.tagGetOk then head.map (fun o => o.tags) else none

/-- The loop body of lines 238-243 over a (possibly absent) tagging
response: the first "modified-timestamp" tag exists and its value equals the
formatted local modification time. -/
def tsMatchB (f : FileMeta) : Option (List (String × String)) → Bool
  | some tags => decide (tsTagValue tags = some f.modTime)
  | none => false

/-- Lines 259-261 over the (possibly absent) head response: the "sha256"
metadata entry exists and equals the fresh local digest. -/
def hashMatchB (f : FileMeta) : Option RemoteObject → Bool
  | some o => decide (storedHash o.metadata = some f.hash)
  | none => false

/-- Lines 237-244: `exists` after the first check — forceHashCheck is unset,
the tagging response is non-nil, and its first "modified-timestamp" tag
equals the formatted local modification time. -/
def exists1B (force : Bool) (f : FileMeta) (e : TaskEnv)
    (head : Option RemoteObject) : Bool :=
  !force && tsMatchB f (tagResp f e head)

/-- Lines 258-262: `exists` after the hash check — the size/marker check
passes and the stored "sha256" metadata equals the fresh local digest. -/
def exists2B (f : FileMeta) (head : Option RemoteObject) : Bool :=
  sizeMatchB f head && hashMatchB f head

/-- Lines 267-278: the tag set written back — every tag of the tagging
response except "modified-timestamp" ones, then a fresh
("modified-timestamp", modTime) tag. -/
def newTagsOf (f : FileMeta) (e : TaskEnv) (head : Option RemoteObject) :
    List (String × String) :=
  (match tagResp f e head with
   | some tags => tags.filter (fun t => !(decide (t.1 = "modified-timestamp")))
   | none => []) ++ [("modified-timestamp", f.modTime)]

/-- Line 264-265: the `Metadata` map sent with the put. -/
def putMetadataOf (f : FileMeta) : List (String × String) :=
  [("sha256", f.hash)]

/-- Effect of `s3Uploader.Upload` (lines 288-294) on the bucket: the object
at `key` is replaced; its metadata is the put's `Metadata` map and its tag
set is empty (the put carries no `Tagging`). -/
def putObj (s : Store) (key : String) (f : FileMeta) : Store :=
  fun k => if k = key then some ⟨f.size, false, putMetadataOf f, []⟩ else s k

/-- Effect of `PutObjectTagging` (lines 307-313) on the bucket: replace the
tag set of the object at `key`. -/
def setTags (s : Store) (key : String) (tags : List (String × String)) : Store :=
  fun k => if k = key then (s k).map (fun o => { o with tags := tags }) else s k

/-- One `UploadFile` call (lines 212-317) with the head response available,
i.e. after the error branch of lines 224-231 was passed: the timestamp
short-circuit, the hash computation, the hash-equivalence check, the
conditional binary upload and the final tag write. -/
def fileStepFound (force : Bool) (f : FileMeta) (e : TaskEnv) (key : String)
    (s : Store) (head : Option RemoteObject) : StepResult × Store :=
  if exists1B force f e head then
    (⟨.skippedTimestamp, false, false, none, none⟩, s)
  else if e.hashOk = false then
    (⟨.hashFailed, true, false, none, none⟩, s)
  else if exists2B f head then
    (⟨.skippedHash, true, false, none, some (newTagsOf f e head)⟩,
     if e.tagPutOk then setTags s key (newTagsOf f e head) else s)
  else if e.openOk = false then
    (⟨.openFailed, true, false, none, none⟩, s)
  else if e.uploadOk = false then
    (⟨.uploadFailed, true, true, some (putMetadataOf f), none⟩, s)
  else
    (⟨.uploadedOk, true, true, some (putMetadataOf f),
      some (newTagsOf f e head)⟩,
     if e.tagPutOk then setTags (putObj s key f) key (newTagsOf f e head)
     else putObj s key f)

/-- One `UploadFile` call (lines 212-317): a non-404 probe error aborts the
task at once (lines 224-231); otherwise the head response is the object the
bucket holds at `key`. -/
def fileStep (force : Bool) (f : FileMeta) (e : TaskEnv) (key : String)
    (s : Store) : StepResult × Store :=
  if e.probeError then (⟨.probeFailed, false, false, none, none⟩, s)
  else fileStepFound force f e key s (s key)

/-- The upload was skipped with the file considered synchronized (the
"already exists" paths of lines 247-250 and 302-305). -/
def StepResult.skipped (r : StepResult) : Bool :=
  match r.status with
  | .skippedTimestamp => true
  | .skippedHash => true
  | _ => false

/-- One file task of the tree walk: target key, local file facts, and the
collaborator outcomes for this task's calls. -/
abbrev Task : Type :=
  String × FileMeta × TaskEnv

/-- The sequence of `UploadFile` calls the `Upload` tree walk issues, in
traversal order, threading the bucket state through. -/
def runTasks (force : Bool) : List Task → Store → List StepResult × Store
  | [], s => ([], s)
  | t :: ts, s =>
    let p := fileStep force t.2.1 t.2.2 t.1 s
    let q := runTasks force ts p.2
    (p.1 :: q.1, q.2)

/-- Number of binary uploads a run issued. -/
def uploadCount (rs : List StepResult) : Nat :=
  rs.countP (fun r => r.putIssued)

/-- Claim C1's synchronization condition, following the spec's words: the
probe finds an object that is not a delete marker, whose stored size equals
the local size, and whose stored timestamp tag equals the local formatted
modification time or whose stored sha256 metadata equals the fresh digest. -/
def claimSyncCondB (f : FileMeta) : Option RemoteObject → Bool
  | some o =>
      !o.deleteMarker && decide (f.size = o.size)
        && (decide (tsTagValue o.tags = some f.modTime)
            || decide (storedHash o.metadata = some f.hash))
  | none => false

/-- The synchronization condition the code implements: as `claimSyncCondB`,
except that the timestamp clause only applies when forceHashCheck is unset. -/
def amendedSyncCondB (force : Bool) (f : FileMeta) : Option RemoteObject → Bool
  | some o =>
      !o.deleteMarker && decide (f.size = o.size)
        && ((!force && decide (tsTagValue o.tags = some f.modTime))
            || decide (storedHash o.metadata = some f.hash))
  | none => false

theorem tagResp_eq_some {f : FileMeta} {e : TaskEnv} {head : Option RemoteObject}
    {tags : List (String × String)} (h : tagResp f e head = some tags) :
    ∃ o, head = some o ∧ tags = o.tags
      ∧ sizeMatchB f head = true ∧ e.tagGetOk = true := by
  unfold tagResp at h
  rcases hsm : sizeMatchB f head && e.tagGetOk with _ | _
  · rw [hsm] at h
    simp at h
  · rw [hsm] at h
    simp only [if_true] at h
    rcases head with _ | o
    · simp at h
    · refine ⟨o, rfl, ?_, ?_, ?_⟩
      · simpa [Option.map] using h.symm
      · exact (Bool.and_eq_true .. ▸ hsm).1
      · exact (Bool.and_eq_true .. ▸ hsm).2

theorem exists1B_sync {force : Bool} {f : FileMeta} {e : TaskEnv}
    {head : Option RemoteObject} (h : exists1B force f e head = true) :
    amendedSyncCondB force f head = true := by
  unfold exists1B at h
  rw [Bool.and_eq_true] at h
  obtain ⟨hforce, hm⟩ := h
  rcases ht : tagResp f e head with _ | tags
  · rw [ht] at hm
    simp [tsMatchB] at hm
  · rw [ht] at hm
    obtain ⟨o, ho, htags, hsm, _⟩ := tagResp_eq_some ht
    subst ho
    subst htags
    rw [tsMatchB, decide_eq_true_eq] at hm
    unfold sizeMatchB at hsm
    rw [Bool.and_eq_true] at hsm
    unfold amendedSyncCondB
    rw [Bool.and_eq_true, Bool.and_eq_true, Bool.or_eq_true]
    exact ⟨⟨hsm.1, hsm.2⟩, Or.inl (by rw [Bool.and_eq_true, decide_eq_true_eq]; exact ⟨hforce, hm⟩)⟩

theorem exists2B_sync {force : Bool} {f : FileMeta} {head : Option RemoteObject}
    (h : exists2B f head = true) :
    amendedSyncCondB force f head = true := by
  unfold exists2B at h
  rw [Bool.and_eq_true] at h
  obtain ⟨hsm, hm⟩ := h
  rcases head with _ | o
  · simp [hashMatchB] at hm
  · rw [hashMatchB, decide_eq_true_eq] at hm
    unfold sizeMatchB at hsm
    rw [Bool.and_eq_true] at hsm
    unfold amendedSyncCondB
    rw [Bool.and_eq_true, Bool.and_eq_true, Bool.or_eq_true]
    exact ⟨⟨hsm.1, hsm.2⟩, Or.inr (by rw [decide_eq_true_eq]; exact hm)⟩

theorem sync_exists {force : Bool} {f : FileMeta} {e : TaskEnv}
    {head : Option RemoteObject} (hget : e.tagGetOk = true)
    (h : amendedSyncCondB force f head = true) :
    exists1B force f e head = true ∨ exists2B f head = true := by
  rcases head with _ | o
  · simp [amendedSyncCondB] at h
  · unfold amendedSyncCondB at h
    rw [Bool.and_eq_true, Bool.and_eq_true, Bool.or_eq_true] at h
    obtain ⟨⟨hdm, hsz⟩, hrest⟩ := h
    have hsm : sizeMatchB f (some o) = true := by
      unfold sizeMatchB
      rw [Bool.and_eq_true]
      exact ⟨hdm, hsz⟩
    have htr : tagResp f e (some o) = some o.tags := by
      unfold tagResp
      rw [hsm, hget]
      rfl
    rcases hrest with h1 | h2
    · left
      rw [Bool.and_eq_true, decide_eq_true_eq] at h1
      unfold exists1B
      rw [Bool.and_eq_true, htr, tsMatchB, decide_eq_true_eq]
      exact h1
    · right
      unfold exists2B
      rw [Bool.and_eq_true, hashMatchB]
      exact ⟨hsm, h2⟩

theorem TaskEnv.ok_spec {e : TaskEnv} (he : e.ok = true) :
    e.probeError = false ∧ e.tagGetOk = true ∧ e.hashOk = true
      ∧ e.openOk = true ∧ e.uploadOk = true ∧ e.tagPutOk = true := by
  unfold TaskEnv.ok at he
  simp only [Bool.and_eq_true, Bool.not_eq_true'] at he
  exact ⟨he.1.1.1.1.1, he.1.1.1.1.2, he.1.1.1.2, he.1.1.2, he.1.2, he.2⟩

theorem exists2B_store {f : FileMeta} {head : Option RemoteObject}
    (h : exists2B f head = true) :
    ∃ o, head = some o ∧ o.deleteMarker = false ∧ f.size = o.size
      ∧ storedHash o.metadata = some f.hash := by
  unfold exists2B at h
  rw [Bool.and_eq_true] at h
  obtain ⟨hsm, hm⟩ := h
  rcases head with _ | o
  · simp [sizeMatchB] at hsm
  · unfold sizeMatchB at hsm
    rw [Bool.and_eq_true] at hsm
    rw [hashMatchB, decide_eq_true_eq] at hm
    exact ⟨o, rfl, by simpa using hsm.1, by simpa using hsm.2, hm⟩

theorem storedHash_putMetadata (f : FileMeta) :
    storedHash (putMetadataOf f) = some f.hash := rfl

theorem fileStepFound_store_other (force : Bool) (f : FileMeta) (e : TaskEnv)
    (key : String) (s : Store) (head : Option RemoteObject) (k : String)
    (hk : k ≠ key) :
    (fileStepFound force f e key s head).2 k = s k := by
  unfold fileStepFound
  split_ifs <;> simp [setTags, putObj, hk]

theorem fileStep_store_other (force : Bool) (f : FileMeta) (e : TaskEnv)
    (key : String) (s : Store) (k : String) (hk : k ≠ key) :
    (fileStep force f e key s).2 k = s k := by
  unfold fileStep
  split_ifs
  · rfl
  · exact fileStepFound_store_other force f e key s (s key) k hk

theorem fileStepFound_skipped_iff (force : Bool) (f : FileMeta) (e : TaskEnv)
    (key : String) (s : Store) (head : Option RemoteObject)
    (hget : e.tagGetOk = true) (hhash : e.hashOk = true) :
    ((fileStepFound force f e key s head).1.skipped = true)
      ↔ amendedSyncCondB force f head = true := by
  rcases h1 : exists1B force f e head with _ | _
  · rcases h2 : exists2B f head with _ | _
    · have hnot : amendedSyncCondB force f head = false := by
        rcases hx : amendedSyncCondB force f head with _ | _
        · rfl
        · rcases sync_exists hget hx with hy | hy
          · rw [h1] at hy
            exact absurd hy (by simp)
          · rw [h2] at hy
            exact absurd hy (by simp)
      rcases ho : e.openOk with _ | _ <;> rcases hu : e.uploadOk with _ | _ <;>
        simp [fileStepFound, h1, h2, hhash, ho, hu, StepResult.skipped, hnot]
    · constructor
      · intro _
        exact exists2B_sync h2
      · intro _
        simp [fileStepFound, h1, h2, hhash, StepResult.skipped]
  · constructor
    · intro _
      exact exists1B_sync h1
    · intro _
      simp [fileStepFound, h1, StepResult.skipped]

theorem fileStepFound_synced_after (force : Bool) (f : FileMeta) (e : TaskEnv)
    (key : String) (s : Store) (_hget : e.tagGetOk = true)
    (hhash : e.hashOk = true) (hopen : e.openOk = true)
    (hup : e.uploadOk = true) (htp : e.tagPutOk = true) :
    amendedSyncCondB force f ((fileStepFound force f e key s (s key)).2 key) = true := by
  rcases h1 : exists1B force f e (s key) with _ | _
  · rcases h2 : exists2B f (s key) with _ | _
    · have hstep : (fileStepFound force f e key s (s key)).2
          = setTags (putObj s key f) key (newTagsOf f e (s key)) := by
        simp [fileStepFound, h1, h2, hhash, hopen, hup, htp]
      rw [hstep]
      have hkey : (setTags (putObj s key f) key (newTagsOf f e (s key))) key
          = some ⟨f.size, false, putMetadataOf f, newTagsOf f e (s key)⟩ := by
        simp [setTags, putObj]
      rw [hkey]
      simp [amendedSyncCondB, storedHash_putMetadata]
    · obtain ⟨o, ho, hdm, hsz, hsh⟩ := exists2B_store h2
      have hstep : (fileStepFound force f e key s (s key)).2
          = setTags s key (newTagsOf f e (s key)) := by
        simp [fileStepFound, h1, h2, hhash, htp]
      rw [hstep]
      have hkey : (setTags s key (newTagsOf f e (s key))) key
          = some { o with tags := newTagsOf f e (s key) } := by
        simp [setTags, ho]
      rw [hkey]
      simp [amendedSyncCondB, hdm, ← hsz, hsh]
  · have hstep : (fileStepFound force f e key s (s key)).2 = s := by
      simp [fileStepFound, h1]
    rw [hstep]
    exact exists1B_sync h1

theorem fileStep_synced_after (force : Bool) (f : FileMeta) (e : TaskEnv)
    (key : String) (s : Store) (he : e.ok = true) :
    amendedSyncCondB force f ((fileStep force f e key s).2 key) = true := by
  obtain ⟨hpe, hget, hhash, hopen, hup, htp⟩ := TaskEnv.ok_spec he
  have h : (fileStep force f e key s).2 = (fileStepFound force f e key s (s key)).2 := by
    simp [fileStep, hpe]
  rw [h]
  exact fileStepFound_synced_after force f e key s hget hhash hopen hup htp

theorem fileStep_no_put_of_synced (force : Bool) (f : FileMeta) (e : TaskEnv)
    (key : String) (s : Store) (he : e.ok = true)
    (hs : amendedSyncCondB force f (s key) = true) :
    (fileStep force f e key s).1.putIssued = false := by
  obtain ⟨hpe, hget, hhash, _, _, _⟩ := TaskEnv.ok_spec he
  rcases h1 : exists1B force f e (s key) with _ | _
  · rcases sync_exists hget hs with hx | h2
    · rw [h1] at hx
      exact absurd hx (by simp)
    · simp [fileStep, hpe, fileStepFound, h1, h2, hhash]
  · simp [fileStep, hpe, fileStepFound, h1]

theorem runTasks_cons (force : Bool) (t : Task) (ts : List Task) (s : Store) :
    runTasks force (t :: ts) s
      = ((fileStep force t.2.1 t.2.2 t.1 s).1
           :: (runTasks force ts (fileStep force t.2.1 t.2.2 t.1 s).2).1,
         (runTasks force ts (fileStep force t.2.1 t.2.2 t.1 s).2).2) := rfl

theorem runTasks_length (force : Bool) (tasks : List Task) (s : Store) :
    (runTasks force tasks s).1.length = tasks.length := by
  induction tasks generalizing s with
  | nil => rfl
  | cons t ts ih =>
    rw [runTasks_cons]
    simp [ih]

theorem runTasks_append (force : Bool) (as bs : List Task) (s : Store) :
    runTasks force (as ++ bs) s
      = ((runTasks force as s).1 ++ (runTasks force bs (runTasks force as s).2).1,
         (runTasks force bs (runTasks force as s).2).2) := by
  induction as generalizing s with
  | nil => simp [runTasks]
  | cons t ts ih =>
    rw [List.cons_append, runTasks_cons, ih, runTasks_cons]
    simp

theorem runTasks_store_other (force : Bool) (tasks : List Task) (s : Store)
    (k : String) (hk : ∀ t ∈ tasks, t.1 ≠ k) :
    (runTasks force tasks s).2 k = s k := by
  induction tasks generalizing s with
  | nil => rfl
  | cons t ts ih =>
    rw [runTasks_cons]
    have h1 := ih (fileStep force t.2.1 t.2.2 t.1 s).2
      (fun u hu => hk u (List.mem_cons_of_mem t hu))
    rw [h1]
    exact fileStep_store_other force t.2.1 t.2.2 t.1 s k
      (Ne.symm (hk t (List.mem_cons_self t ts)))

theorem runTasks_all_synced (force : Bool) (tasks : List Task) :
    ∀ s : Store, (∀ t ∈ tasks, t.2.2.ok = true) →
      (tasks.map (fun t => t.1)).Nodup →
      ∀ t ∈ tasks, amendedSyncCondB force t.2.1 ((runTasks force tasks s).2 t.1) = true := by
  induction tasks with
  | nil =>
    intro s _ _ t ht
    cases ht
  | cons u ts ih =>
    intro s hok hnd t ht
    have hnd2 : (∀ v ∈ ts, v.1 ≠ u.1) ∧ (ts.map (fun w => w.1)).Nodup := by
      rw [List.map_cons, List.nodup_cons] at hnd
      exact ⟨fun v hv hEq => hnd.1 (hEq ▸ List.mem_map_of_mem (fun w => w.1) hv), hnd.2⟩
    rw [runTasks_cons]
    rcases List.mem_cons.mp ht with rfl | hmem
    · rw [runTasks_store_other force ts _ t.1 (fun v hv => hnd2.1 v hv)]
      exact fileStep_synced_after force t.2.1 t.2.2 t.1 s (hok t (List.mem_cons_self t ts))
    · exact ih _ (fun v hv => hok v (List.mem_cons_of_mem u hv)) hnd2.2 t hmem

theorem runTasks_no_put_of_synced (force : Bool) (tasks : List Task) :
    ∀ s : Store, (∀ t ∈ tasks, t.2.2.ok = true) →
      (tasks.map (fun t => t.1)).Nodup →
      (∀ t ∈ tasks, amendedSyncCondB force t.2.1 (s t.1) = true) →
      uploadCount (runTasks force tasks s).1 = 0 := by
  induction tasks with
  | nil =>
    intro s _ _ _
    rfl
  | cons u ts ih =>
    intro s hok hnd hs
    have hnd2 : (∀ v ∈ ts, v.1 ≠ u.1) ∧ (ts.map (fun w => w.1)).Nodup := by
      rw [List.map_cons, List.nodup_cons] at hnd
      exact ⟨fun v hv hEq => hnd.1 (hEq ▸ List.mem_map_of_mem (fun w => w.1) hv), hnd.2⟩
    have h0 : (fileStep force u.2.1 u.2.2 u.1 s).1.putIssued = false :=
      fileStep_no_put_of_synced force u.2.1 u.2.2 u.1 s
        (hok u (List.mem_cons_self u ts)) (hs u (List.mem_cons_self u ts))
    have htail := ih (fileStep force u.2.1 u.2.2 u.1 s).2
      (fun v hv => hok v (List.mem_cons_of_mem u hv)) hnd2.2
      (fun v hv => by
        rw [fileStep_store_other force u.2.1 u.2.2 u.1 s v.1 (hnd2.1 v hv)]
        exact hs v (List.mem_cons_of_mem u hv))
    rw [runTasks_cons]
    unfold uploadCount at htail ⊢
    rw [List.countP_cons, htail, h0]
    rfl

/-- C2: after a completed error-free run of the sync over a task list with
distinct target keys, a second error-free run over the same unchanged tasks
issues zero binary uploads (its steps are at most tag rewrites). -/
theorem c2_second_run_no_uploads (force : Bool) (tasks : List Task) (s0 : Store)
    (hok : ∀ t ∈ tasks, t.2.2.ok = true)
    (hnd : (tasks.map (fun t => t.1)).Nodup) :
    uploadCount (runTasks force tasks (runTasks force tasks s0).2).1 = 0 :=
  runTasks_no_put_of_synced force tasks (runTasks force tasks s0).2 hok hnd
    (runTasks_all_synced force tasks s0 hok hnd)

/-- C2 witness: a one-file tree, first synced into an empty bucket, then
synced again: the second run uploads nothing. -/
theorem c2_second_run_no_uploads_witness :
    (∀ t ∈ ([("k", ⟨5, "2024-01-02 03:04:05", "h1"⟩, envOk)] : List Task), t.2.2.ok = true)
    ∧ ((([("k", ⟨5, "2024-01-02 03:04:05", "h1"⟩, envOk)] : List Task).map (fun t => t.1)).Nodup)
    ∧ uploadCount (runTasks false ([("k", ⟨5, "2024-01-02 03:04:05", "h1"⟩, envOk)] : List Task)
        (runTasks false ([("k", ⟨5, "2024-01-02 03:04:05", "h1"⟩, envOk)] : List Task)
          (fun _ => none)).2).1 = 0 :=
  ⟨by decide, by decide,
    c2_second_run_no_uploads false _ (fun _ => none) (by decide) (by decide)⟩

theorem tsTagValue_filter_append (tags : List (String × String)) (m : String) :
    tsTagValue ((tags.filter (fun t => !(decide (t.1 = "modified-timestamp"))))
      ++ [("modified-timestamp", m)]) = some m := by
  unfold tsTagValue findTsTag
  induction tags with
  | nil => rfl
  | cons a as ih =>
    rcases hp : decide (a.1 = "modified-timestamp") with _ | _
    · have hfil : (a :: as).filter (fun t => !(decide (t.1 = "modified-timestamp")))
          = a :: as.filter (fun t => !(decide (t.1 = "modified-timestamp"))) := by
        simp [List.filter_cons, hp]
      rw [hfil, List.cons_append, List.find?_cons_of_neg _ (by simp [hp])]
      exact ih
    · have hfil : (a :: as).filter (fun t => !(decide (t.1 = "modified-timestamp")))
          = as.filter (fun t => !(decide (t.1 = "modified-timestamp"))) := by
        simp [List.filter_cons, hp]
      rw [hfil]
      exact ih

/-- C1 counterexample: with forceHashCheck set, a remote object of equal
size whose stored timestamp tag matches the local modification time but
whose stored sha256 differs from the fresh digest satisfies the claim's
skip condition, yet the code does not skip the binary upload, so the
claimed equivalence fails as stated. -/
theorem c1_counterexample :
    ¬ (((fileStep true ⟨5, "T", "bbb"⟩ envOk "k"
          (fun _ => some ⟨5, false, [("sha256", "aaa")], [("modified-timestamp", "T")]⟩)).1.skipped
            = true)
        ↔ claimSyncCondB ⟨5, "T", "bbb"⟩
            (some ⟨5, false, [("sha256", "aaa")], [("modified-timestamp", "T")]⟩) = true) := by
  decide

/-- C1 (amended): with error-free collaborator calls, the binary upload is
skipped (the file considered synchronized) iff the probe finds an object
that is not a delete marker, whose stored size equals the local size, and
either forceHashCheck is unset and the stored timestamp tag equals the
local formatted modification time, or the stored sha256 metadata equals the
freshly computed digest; no other combination leads to a skip. -/
theorem c1_skip_iff_synchronized (force : Bool) (f : FileMeta) (e : TaskEnv)
    (key : String) (s : Store) (he : e.ok = true) :
    ((fileStep force f e key s).1.skipped = true)
      ↔ amendedSyncCondB force f (s key) = true := by
  obtain ⟨hpe, hget, hhash, _, _, _⟩ := TaskEnv.ok_spec he
  have hF : fileStep force f e key s = fileStepFound force f e key s (s key) := by
    simp [fileStep, hpe]
  rw [hF]
  exact fileStepFound_skipped_iff force f e key s (s key) hget hhash

/-- C1 witness: a hash-equivalent object makes both sides of the amended
equivalence true. -/
theorem c1_skip_iff_synchronized_witness :
    envOk.ok = true
    ∧ (((fileStep false ⟨5, "T", "h"⟩ envOk "k"
          (fun _ => some ⟨5, false, [("sha256", "h")], []⟩)).1.skipped = true)
        ↔ amendedSyncCondB false ⟨5, "T", "h"⟩
            ((fun _ => some (⟨5, false, [("sha256", "h")], []⟩ : RemoteObject)) "k") = true) :=
  ⟨by decide, c1_skip_iff_synchronized false ⟨5, "T", "h"⟩ envOk "k" _ (by decide)⟩

/-- C3: with error-free collaborator calls, if the probe finds an object
whose stored size differs from the local size, the file is re-uploaded,
whatever the stored timestamp tag or stored hash say. -/
theorem c3_size_mismatch_reuploads (force : Bool) (f : FileMeta) (e : TaskEnv)
    (key : String) (s : Store) (o : RemoteObject) (he : e.ok = true)
    (ho : s key = some o) (hsz : o.size ≠ f.size) :
    (fileStep force f e key s).1.status = UploadStatus.uploadedOk
    ∧ (fileStep force f e key s).1.putIssued = true := by
  obtain ⟨hpe, hget, hhash, hopen, hup, htp⟩ := TaskEnv.ok_spec he
  have hde : decide (f.size = o.size) = false := decide_eq_false (fun h => hsz h.symm)
  have hsm : sizeMatchB f (s key) = false := by
    rw [ho, sizeMatchB, hde, Bool.and_false]
  have h1 : exists1B force f e (s key) = false := by
    unfold exists1B tagResp
    rw [hsm]
    simp [tsMatchB]
  have h2 : exists2B f (s key) = false := by
    unfold exists2B
    rw [hsm, Bool.false_and]
  constructor <;> simp [fileStep, hpe, fileStepFound, h1, h2, hhash, hopen, hup]

/-- C3 witness: stored size 7 against local size 5 forces a re-upload even
though the stored timestamp tag and hash match. -/
theorem c3_size_mismatch_reuploads_witness :
    envOk.ok = true
    ∧ (fun _ : String => some (⟨7, false, [("sha256", "h")], [("modified-timestamp", "T")]⟩ : RemoteObject)) "k"
        = some (⟨7, false, [("sha256", "h")], [("modified-timestamp", "T")]⟩ : RemoteObject)
    ∧ ((7 : Int) ≠ (5 : Int))
    ∧ ((fileStep false ⟨5, "T", "h"⟩ envOk "k"
          (fun _ => some ⟨7, false, [("sha256", "h")], [("modified-timestamp", "T")]⟩)).1.status
            = UploadStatus.uploadedOk
       ∧ (fileStep false ⟨5, "T", "h"⟩ envOk "k"
          (fun _ => some ⟨7, false, [("sha256", "h")], [("modified-timestamp", "T")]⟩)).1.putIssued
            = true) :=
  ⟨by decide, rfl, by decide,
    c3_size_mismatch_reuploads false ⟨5, "T", "h"⟩ envOk "k" _ _ (by decide) rfl (by decide)⟩

/-- C4: with forceHashCheck set, a skip only ever happens when the probe
found an object whose stored sha256 metadata equals the freshly computed
digest; a matching stored timestamp tag alone never causes a skip. -/
theorem c4_forcehash_skip_needs_hash (f : FileMeta) (e : TaskEnv) (key : String)
    (s : Store) (hs : (fileStep true f e key s).1.skipped = true) :
    ∃ o, s key = some o ∧ storedHash o.metadata = some f.hash := by
  rcases hpe : e.probeError with _ | _
  · have hF : (fileStep true f e key s).1 = (fileStepFound true f e key s (s key)).1 := by
      simp [fileStep, hpe]
    rw [hF] at hs
    have h1 : exists1B true f e (s key) = false := rfl
    rcases h2 : exists2B f (s key) with _ | _
    · exfalso
      rcases hh : e.hashOk with _ | _ <;> rcases ho2 : e.openOk with _ | _ <;>
        rcases hu : e.uploadOk with _ | _ <;>
        simp [fileStepFound, h1, h2, hh, ho2, hu, StepResult.skipped] at hs
    · obtain ⟨o, ho, _, _, hsh⟩ := exists2B_store h2
      exact ⟨o, ho, hsh⟩
  · exfalso
    simp [fileStep, hpe, StepResult.skipped] at hs

/-- C4 witness: under forceHashCheck the skip at a hash-equivalent object
indeed exhibits a matching stored hash. -/
theorem c4_forcehash_skip_needs_hash_witness :
    ((fileStep true ⟨5, "T", "h"⟩ envOk "k"
        (fun _ => some ⟨5, false, [("sha256", "h")], []⟩)).1.skipped = true)
    ∧ ∃ o, (fun _ : String => some (⟨5, false, [("sha256", "h")], []⟩ : RemoteObject)) "k" = some o
        ∧ storedHash o.metadata = some "h" :=
  ⟨by decide,
    c4_forcehash_skip_needs_hash ⟨5, "T", "h"⟩ envOk "k"
      (fun _ => some ⟨5, false, [("sha256", "h")], []⟩) (by decide)⟩

/-- C6: with error-free calls, a file equivalent by hash (size matches,
stored sha256 equals the fresh digest) whose stored timestamp tag differs
is not re-uploaded; the tag set is rewritten so that the
modified-timestamp tag equals the current local formatted modification
time, and every other existing tag is preserved verbatim. -/
theorem c6_hash_skip_rewrites_tags (force : Bool) (f : FileMeta) (e : TaskEnv)
    (key : String) (s : Store) (o : RemoteObject) (v : String)
    (he : e.ok = true) (ho : s key = some o) (hdm : o.deleteMarker = false)
    (hsz : o.size = f.size) (hsh : storedHash o.metadata = some f.hash)
    (hts : tsTagValue o.tags = some v) (hne : v ≠ f.modTime) :
    (fileStep force f e key s).1.status = UploadStatus.skippedHash
    ∧ (fileStep force f e key s).1.putIssued = false
    ∧ (fileStep force f e key s).1.tagsIssued
        = some (o.tags.filter (fun t => !(decide (t.1 = "modified-timestamp")))
            ++ [("modified-timestamp", f.modTime)])
    ∧ tsTagValue (o.tags.filter (fun t => !(decide (t.1 = "modified-timestamp")))
        ++ [("modified-timestamp", f.modTime)]) = some f.modTime
    ∧ (fileStep force f e key s).2
        = setTags s key (o.tags.filter (fun t => !(decide (t.1 = "modified-timestamp")))
            ++ [("modified-timestamp", f.modTime)]) := by
  obtain ⟨hpe, hget, hhash, hopen, hup, htp⟩ := TaskEnv.ok_spec he
  have hsm : sizeMatchB f (s key) = true := by
    rw [ho, sizeMatchB, hdm, hsz]
    simp
  have htr : tagResp f e (s key) = some o.tags := by
    unfold tagResp
    rw [hsm, hget, ho]
    rfl
  have h1 : exists1B force f e (s key) = false := by
    unfold exists1B
    rw [htr, tsMatchB, hts]
    have hd : decide ((some v : Option String) = some f.modTime) = false :=
      decide_eq_false (by simpa using hne)
    rw [hd, Bool.and_false]
  have h2 : exists2B f (s key) = true := by
    unfold exists2B
    rw [hsm, ho, hashMatchB, hsh]
    simp
  have hnt : newTagsOf f e (s key)
      = o.tags.filter (fun t => !(decide (t.1 = "modified-timestamp")))
        ++ [("modified-timestamp", f.modTime)] := by
    unfold newTagsOf
    rw [htr]
  refine ⟨?_, ?_, ?_, tsTagValue_filter_append o.tags f.modTime, ?_⟩
  · simp [fileStep, hpe, fileStepFound, h1, h2, hhash]
  · simp [fileStep, hpe, fileStepFound, h1, h2, hhash]
  · simp [fileStep, hpe, fileStepFound, h1, h2, hhash, hnt]
  · simp [fileStep, hpe, fileStepFound, h1, h2, hhash, htp, hnt]

/-- C6 witness: a stale timestamp tag "T1" against local time "T2" with
matching hash: no upload, the tag write keeps ("color", "blue") verbatim
and carries the fresh timestamp. -/
theorem c6_hash_skip_rewrites_tags_witness :
    envOk.ok = true
    ∧ (fun _ : String => some (⟨5, false, [("sha256", "h")],
        [("color", "blue"), ("modified-timestamp", "T1")]⟩ : RemoteObject)) "k"
        = some (⟨5, false, [("sha256", "h")],
            [("color", "blue"), ("modified-timestamp", "T1")]⟩ : RemoteObject)
    ∧ tsTagValue [("color", "blue"), ("modified-timestamp", "T1")] = some "T1"
    ∧ ("T1" ≠ "T2")
    ∧ ((fileStep false ⟨5, "T2", "h"⟩ envOk "k"
          (fun _ => some ⟨5, false, [("sha256", "h")],
            [("color", "blue"), ("modified-timestamp", "T1")]⟩)).1.status
          = UploadStatus.skippedHash
       ∧ (fileStep false ⟨5, "T2", "h"⟩ envOk "k"
          (fun _ => some ⟨5, false, [("sha256", "h")],
            [("color", "blue"), ("modified-timestamp", "T1")]⟩)).1.putIssued = false
       ∧ (fileStep false ⟨5, "T2", "h"⟩ envOk "k"
          (fun _ => some ⟨5, false, [("sha256", "h")],
            [("color", "blue"), ("modified-timestamp", "T1")]⟩)).1.tagsIssued
          = some (([("color", "blue"), ("modified-timestamp", "T1")] : List (String × String)).filter
              (fun t => !(decide (t.1 = "modified-timestamp")))
              ++ [("modified-timestamp", "T2")])
       ∧ tsTagValue (([("color", "blue"), ("modified-timestamp", "T1")] : List (String × String)).filter
            (fun t => !(decide (t.1 = "modified-timestamp")))
            ++ [("modified-timestamp", "T2")]) = some "T2"
       ∧ (fileStep false ⟨5, "T2", "h"⟩ envOk "k"
          (fun _ => some ⟨5, false, [("sha256", "h")],
            [("color", "blue"), ("modified-timestamp", "T1")]⟩)).2
          = setTags (fun _ => some ⟨5, false, [("sha256", "h")],
              [("color", "blue"), ("modified-timestamp", "T1")]⟩) "k"
              (([("color", "blue"), ("modified-timestamp", "T1")] : List (String × String)).filter
                (fun t => !(decide (t.1 = "modified-timestamp")))
                ++ [("modified-timestamp", "T2")])) :=
  ⟨by decide, rfl, by decide, by decide,
    c6_hash_skip_rewrites_tags false ⟨5, "T2", "h"⟩ envOk "k" _ _ "T1"
      (by decide) rfl rfl rfl (by decide) (by decide) (by decide)⟩

/-- C7 counterexample: on a fresh upload the put's metadata map is exactly
the sha256 entry; it contains no entry carrying the formatted modification
timestamp, so the single put does not attach two pieces of metadata. -/
theorem c7_counterexample :
    (fileStep false ⟨5, "2024-01-02 03:04:05", "h"⟩ envOk "k" (fun _ => none)).1.putIssued = true
    ∧ (fileStep false ⟨5, "2024-01-02 03:04:05", "h"⟩ envOk "k" (fun _ => none)).1.putMetadata
        = some [("sha256", "h")]
    ∧ ∀ kv ∈ ([("sha256", "h")] : List (String × String)),
        kv.2 ≠ "2024-01-02 03:04:05" ∧ kv.1 ≠ "modified-timestamp" :=
  ⟨by decide, by decide, by decide⟩

/-- C7 (amended): every binary put carries exactly one metadata entry, the
freshly computed sha256 digest; the formatted local modification timestamp
is attached by the tag write issued in the same task right after the
upload. -/
theorem c7_put_sha_then_tag_timestamp (force : Bool) (f : FileMeta) (e : TaskEnv)
    (key : String) (s : Store) (he : e.ok = true)
    (hp : (fileStep force f e key s).1.putIssued = true) :
    (fileStep force f e key s).1.putMetadata = some [("sha256", f.hash)]
    ∧ ∃ L, (fileStep force f e key s).1.tagsIssued = some L
        ∧ tsTagValue L = some f.modTime := by
  obtain ⟨hpe, hget, hhash, hopen, hup, htp⟩ := TaskEnv.ok_spec he
  have hF : fileStep force f e key s = fileStepFound force f e key s (s key) := by
    simp [fileStep, hpe]
  rw [hF] at hp ⊢
  rcases h1 : exists1B force f e (s key) with _ | _
  · rcases h2 : exists2B f (s key) with _ | _
    · have hts : tsTagValue (newTagsOf f e (s key)) = some f.modTime := by
        unfold newTagsOf
        cases htr : tagResp f e (s key) with
        | none => simpa using tsTagValue_filter_append [] f.modTime
        | some tags => exact tsTagValue_filter_append tags f.modTime
      refine ⟨?_, ⟨newTagsOf f e (s key), ?_, hts⟩⟩
      · simp [fileStepFound, h1, h2, hhash, hopen, hup, putMetadataOf]
      · simp [fileStepFound, h1, h2, hhash, hopen, hup]
    · exfalso
      simp [fileStepFound, h1, h2, hhash] at hp
  · exfalso
    simp [fileStepFound, h1] at hp

/-- C7 witness: a fresh upload carries the sha256 metadata in the put and
the timestamp in the subsequent tag write. -/
theorem c7_put_sha_then_tag_timestamp_witness :
    envOk.ok = true
    ∧ (fileStep false ⟨5, "T", "h"⟩ envOk "k" (fun _ => none)).1.putIssued = true
    ∧ ((fileStep false ⟨5, "T", "h"⟩ envOk "k" (fun _ => none)).1.putMetadata
        = some [("sha256", "h")]
       ∧ ∃ L, (fileStep false ⟨5, "T", "h"⟩ envOk "k" (fun _ => none)).1.tagsIssued = some L
           ∧ tsTagValue L = some "T") :=
  ⟨by decide, by decide,
    c7_put_sha_then_tag_timestamp false ⟨5, "T", "h"⟩ envOk "k" _ (by decide) (by decide)⟩

/-- C8: a non-404 probe error aborts the task without reading the local
file, without issuing a put and without issuing a tag write, leaving the
bucket untouched; and within one directory the walk still processes every
sibling task, the siblings after the failed one running against the same
bucket state as if the failed task were a no-op. -/
theorem c8_probe_error_aborts (force : Bool) (f : FileMeta) (e : TaskEnv)
    (key : String) (s : Store) (pre post : List Task) (s0 : Store)
    (hpe : e.probeError = true) :
    fileStep force f e key s = (⟨UploadStatus.probeFailed, false, false, none, none⟩, s)
    ∧ (runTasks force (pre ++ (key, f, e) :: post) s0).1
        = (runTasks force pre s0).1
          ++ ⟨UploadStatus.probeFailed, false, false, none, none⟩
             :: (runTasks force post (runTasks force pre s0).2).1 := by
  have h1 : ∀ s' : Store,
      fileStep force f e key s' = (⟨UploadStatus.probeFailed, false, false, none, none⟩, s') := by
    intro s'
    simp [fileStep, hpe]
  refine ⟨h1 s, ?_⟩
  have h2 := congrArg Prod.fst (runTasks_append force pre ((key, f, e) :: post) s0)
  rw [h2, runTasks_cons]
  simp [h1]

/-- C8 witness: a probe failure at key "k1" leaves the bucket unchanged and
the sibling task at "k2" is still processed. -/
theorem c8_probe_error_aborts_witness :
    (⟨true, true, true, true, true, true⟩ : TaskEnv).probeError = true
    ∧ (fileStep false ⟨5, "T", "h"⟩ ⟨true, true, true, true, true, true⟩ "k1" (fun _ => none)
        = (⟨UploadStatus.probeFailed, false, false, none, none⟩, fun _ => none)
       ∧ (runTasks false ([] ++ ("k1", ⟨5, "T", "h"⟩, ⟨true, true, true, true, true, true⟩)
            :: [("k2", ⟨6, "U", "g"⟩, envOk)]) (fun _ => none)).1
          = (runTasks false [] (fun _ => none)).1
            ++ ⟨UploadStatus.probeFailed, false, false, none, none⟩
               :: (runTasks false [("k2", ⟨6, "U", "g"⟩, envOk)]
                    (runTasks false [] (fun _ => none)).2).1) :=
  ⟨by decide,
    c8_probe_error_aborts false ⟨5, "T", "h"⟩ ⟨true, true, true, true, true, true⟩ "k1"
      (fun _ => none) [] [("k2", ⟨6, "U", "g"⟩, envOk)] (fun _ => none) (by decide)⟩

/-- C10: with forceHashCheck unset, when the probe finds a non-delete-marker
object of equal size whose stored modified-timestamp tag equals the local
formatted modification time, the task ends at once: no put, no tag write,
the local file content is never read, and the bucket is unchanged. -/
theorem c10_timestamp_match_no_effects (f : FileMeta) (e : TaskEnv) (key : String)
    (s : Store) (o : RemoteObject)
    (hpe : e.probeError = false) (hget : e.tagGetOk = true)
    (ho : s key = some o) (hdm : o.deleteMarker = false)
    (hsz : o.size = f.size) (hts : tsTagValue o.tags = some f.modTime) :
    fileStep false f e key s = (⟨UploadStatus.skippedTimestamp, false, false, none, none⟩, s) := by
  have hsm : sizeMatchB f (s key) = true := by
    rw [ho, sizeMatchB, hdm, hsz]
    simp
  have htr : tagResp f e (s key) = some o.tags := by
    unfold tagResp
    rw [hsm, hget, ho]
    rfl
  have h1 : exists1B false f e (s key) = true := by
    unfold exists1B
    rw [htr, tsMatchB, hts]
    simp
  simp [fileStep, hpe, fileStepFound, h1]

/-- C10 witness: a timestamp-matching object at key "k" ends the task with
no effect at all, whatever the hash situation. -/
theorem c10_timestamp_match_no_effects_witness :
    envOk.probeError = false
    ∧ envOk.tagGetOk = true
    ∧ (fun _ : String => some (⟨5, false, [], [("modified-timestamp", "T")]⟩ : RemoteObject)) "k"
        = some (⟨5, false, [], [("modified-timestamp", "T")]⟩ : RemoteObject)
    ∧ tsTagValue [("modified-timestamp", "T")] = some "T"
    ∧ fileStep false ⟨5, "T", "h"⟩ envOk "k"
        (fun _ => some ⟨5, false, [], [("modified-timestamp", "T")]⟩)
        = (⟨UploadStatus.skippedTimestamp, false, false, none, none⟩,
           fun _ => some ⟨5, false, [], [("modified-timestamp", "T")]⟩) :=
  ⟨by decide, by decide, rfl, by decide,
    c10_timestamp_match_no_effects ⟨5, "T", "h"⟩ envOk "k" _ _
      (by decide) (by decide) rfl rfl rfl (by decide)⟩

end S3Backup
